import Mathlib

/-!
Shallow embedding of the project-sage assistance-request orchestrator
(internal/request/service.go, internal/request/repository.go,
internal/billing/repository.go, internal/domain/models.go).

UUIDs are modeled as Nat, timestamps as Nat, Go errors as Except String.
The Postgres tables are modeled as lists of records; a SQL conditional
UPDATE is a map over the table that rewrites exactly the rows matching
the WHERE clause, with the affected-row count given by filtering on the
same condition.  Nondeterministic collaborator outcomes (LLM gateway,
chat gateway, insert success) are oracle parameters.
-/

namespace Sage

/-- Mirrors domain.AssistanceRequest (internal/domain/models.go):
nullable columns (expert id, accepted and resolved timestamps) are Options,
status is the raw string column. -/
structure AssistanceRequest where
  requestID : Nat
  userID : Nat
  expertID : Option Nat
  status : String
  llmSummary : String
  twilioConversationSID : String
  createdAt : Nat
  acceptedAt : Option Nat
  resolvedAt : Option Nat
  deriving DecidableEq

/-- Mirrors domain.ExpertRating (internal/domain/models.go). -/
structure ExpertRating where
  ratingID : Nat
  requestID : Nat
  userID : Nat
  expertID : Nat
  score : Int
  deriving DecidableEq

/-- The two tables owned by the request service: assistance_requests and
expert_ratings, in insertion order. -/
structure Store where
  requests : List AssistanceRequest
  ratings : List ExpertRating
  deriving DecidableEq

/-- One invocation of the chat gateway (clients.go: RemoveBot / AddExpert). -/
inductive ChatCall where
  | removeBot (twilioSID : String)
  | addExpert (twilioSID : String) (expertID : Nat)
  deriving DecidableEq

/-- The three log sites in service.go: the two WARNING printf calls in
CreateRequest and the CRITICAL printf call in AcceptRequest. -/
inductive LogEvent where
  | warnSummaryFailed (userID : Nat)
  | warnRemoveBotFailed (twilioSID : String)
  | criticalAddExpertFailed (expertID : Nat) (twilioSID : String)
  deriving DecidableEq

/-- Whole-system state seen by the orchestrator: the billing users table
(user id, token balance), the request store, and logs of outbound
collaborator calls (LLM summarize calls, chat calls) and printf events. -/
structure World where
  users : List (Nat × Nat)
  store : Store
  llmCalls : List String
  chatCalls : List ChatCall
  log : List LogEvent
  deriving DecidableEq

namespace Billing

/-- DebitToken (internal/billing/repository.go): the atomic SQL
  UPDATE users SET assistance_token_balance = assistance_token_balance - 1
  WHERE user_id = $1 AND assistance_token_balance > 0 RETURNING ...
Zero affected rows is the distinguished error; RETURNING yields the new
balance of the (first) affected row. -/
def DebitToken (users : List (Nat × Nat)) (userID : Nat) :
    Except String (List (Nat × Nat) × Nat) :=
  match users.find? (fun u => u.1 == userID && decide (0 < u.2)) with
  | none => Except.error "insufficient funds or user not found"
  | some u =>
      Except.ok
        (users.map (fun v => if v.1 == userID && decide (0 < v.2) then (v.1, v.2 - 1) else v),
         u.2 - 1)

end Billing

/-- WHERE clause of the accept UPDATE (repository: AcceptRequest):
request_id = $3 AND status = 'pending'. -/
def acceptCond (requestID : Nat) (q : AssistanceRequest) : Bool :=
  q.requestID == requestID && q.status == "pending"

/-- SET clause of the accept UPDATE: status = 'active', expert_id = $1,
accepted_at = $2. -/
def acceptSet (expertID now : Nat) (q : AssistanceRequest) : AssistanceRequest :=
  { q with status := "active", expertID := some expertID, acceptedAt := some now }

/-- WHERE clause of the resolve UPDATE (repository: ResolveRequest):
request_id = $2 AND status = 'active'. -/
def resolveCond (requestID : Nat) (q : AssistanceRequest) : Bool :=
  q.requestID == requestID && q.status == "active"

/-- SET clause of the resolve UPDATE: status = 'resolved', resolved_at = $1. -/
def resolveSet (now : Nat) (q : AssistanceRequest) : AssistanceRequest :=
  { q with status := "resolved", resolvedAt := some now }

/-- Projection performed by the GetPendingRequests row Scan: only
request_id, user_id, twilio_conversation_sid and created_at are read;
every other field of the freshly declared struct keeps its Go zero value. -/
def scanQueueRow (q : AssistanceRequest) : AssistanceRequest :=
  { requestID := q.requestID
    userID := q.userID
    expertID := none
    status := ""
    llmSummary := ""
    twilioConversationSID := q.twilioConversationSID
    createdAt := q.createdAt
    acceptedAt := none
    resolvedAt := none }

/-- Insert one row into a list kept ascending by createdAt. -/
def insertByCreated (q : AssistanceRequest) :
    List AssistanceRequest → List AssistanceRequest
  | [] => [q]
  | q2 :: qs =>
      if q.createdAt ≤ q2.createdAt then q :: q2 :: qs
      else q2 :: insertByCreated q qs

/-- ORDER BY created_at ASC, as a stable insertion sort on the filtered rows. -/
def sortByCreated : List AssistanceRequest → List AssistanceRequest
  | [] => []
  | q :: qs => insertByCreated q (sortByCreated qs)

namespace Repo

/-- CreateRequest (repository): sets request_id, status 'pending' and
created_at server-side, then INSERTs; insertOk models whether the
ExecContext call succeeds. Returns the mutated record like the Go code,
which writes through the *req pointer. -/
def CreateRequest (s : Store) (req : AssistanceRequest) (newID now : Nat)
    (insertOk : Bool) : Except String (Store × AssistanceRequest) :=
  let req2 := { req with requestID := newID, status := "pending", createdAt := now }
  if insertOk then
    Except.ok ({ s with requests := s.requests ++ [req2] }, req2)
  else
    Except.error "could not insert request"

/-- GetPendingRequests (repository): SELECT the four queue columns FROM
assistance_requests WHERE status = 'pending' ORDER BY created_at ASC. -/
def GetPendingRequests (s : Store) : List AssistanceRequest :=
  (sortByCreated (s.requests.filter (fun q => q.status == "pending"))).map scanQueueRow

/-- AcceptRequest (repository): the atomic conditional UPDATE setting
status 'active' and the expert, guarded by status = 'pending'; zero
affected rows yields the distinguished conflict error. -/
def AcceptRequest (s : Store) (requestID expertID now : Nat) :
    Except String Store :=
  let updated := s.requests.map
    (fun q => if acceptCond requestID q then acceptSet expertID now q else q)
  let rowsAffected := (s.requests.filter (acceptCond requestID)).length
  if rowsAffected = 0 then
    Except.error "request not found or was already accepted"
  else
    Except.ok { s with requests := updated }

/-- ResolveRequest (repository): the atomic conditional UPDATE setting
status 'resolved', guarded by status = 'active'. -/
def ResolveRequest (s : Store) (requestID now : Nat) : Except String Store :=
  let updated := s.requests.map
    (fun q => if resolveCond requestID q then resolveSet now q else q)
  let rowsAffected := (s.requests.filter (resolveCond requestID)).length
  if rowsAffected = 0 then
    Except.error "request not found or was not active"
  else
    Except.ok { s with requests := updated }

/-- GetRequestByID (repository): SELECT of all nine columns by primary key;
sql.ErrNoRows becomes the distinguished not-found error. -/
def GetRequestByID (s : Store) (requestID : Nat) :
    Except String AssistanceRequest :=
  match s.requests.find? (fun q => q.requestID == requestID) with
  | some q => Except.ok q
  | none => Except.error "request not found"

/-- CreateRating (repository): sets the primary key then INSERTs the
rating unconditionally; insertOk models ExecContext success. -/
def CreateRating (s : Store) (rating : ExpertRating) (newID : Nat)
    (insertOk : Bool) : Except String Store :=
  let r2 := { rating with ratingID := newID }
  if insertOk then
    Except.ok { s with ratings := s.ratings ++ [r2] }
  else
    Except.error "could not insert rating"

end Repo

namespace Service

/-- CreateRequest (service.go): debit one token, summarize the chat,
persist the pending record, then best-effort remove the bot.  Each error
is wrapped with the step-identifying prefix from the Go fmt.Errorf; the
bot-removal failure is only logged. -/
def CreateRequest (w : World) (userID : Nat) (twilioSID : String)
    (summarize : String → Except String String)
    (removeBot : String → Except String Unit)
    (insertOk : Bool) (newID now : Nat) :
    Except String AssistanceRequest × World :=
  match Billing.DebitToken w.users userID with
  | Except.error e => (Except.error ("token debit failed: " ++ e), w)
  | Except.ok (users2, _) =>
    let w1 : World := { w with users := users2, llmCalls := w.llmCalls ++ [twilioSID] }
    match summarize twilioSID with
    | Except.error e =>
        (Except.error ("could not summarize chat: " ++ e),
         { w1 with log := w1.log ++ [LogEvent.warnSummaryFailed userID] })
    | Except.ok summary =>
      let req0 : AssistanceRequest :=
        { requestID := 0
          userID := userID
          expertID := none
          status := ""
          llmSummary := summary
          twilioConversationSID := twilioSID
          createdAt := 0
          acceptedAt := none
          resolvedAt := none }
      match Repo.CreateRequest w1.store req0 newID now insertOk with
      | Except.error e => (Except.error ("could not save request: " ++ e), w1)
      | Except.ok (store2, req) =>
        let w2 : World :=
          { w1 with store := store2
                    chatCalls := w1.chatCalls ++ [ChatCall.removeBot twilioSID] }
        match removeBot twilioSID with
        | Except.error _ =>
            (Except.ok req, { w2 with log := w2.log ++ [LogEvent.warnRemoveBotFailed twilioSID] })
        | Except.ok _ => (Except.ok req, w2)

/-- AcceptRequest (service.go): atomic conditional claim in the store,
re-fetch for the Twilio SID, then add the expert to the chat; an
add-expert failure is logged CRITICAL and returned as an error with no
store rollback. -/
def AcceptRequest (w : World) (requestID expertID : Nat)
    (addExpert : String → Nat → Except String Unit) (now : Nat) :
    Except String AssistanceRequest × World :=
  match Repo.AcceptRequest w.store requestID expertID now with
  | Except.error e => (Except.error ("could not accept request: " ++ e), w)
  | Except.ok store2 =>
    let w1 : World := { w with store := store2 }
    match Repo.GetRequestByID store2 requestID with
    | Except.error e => (Except.error ("could not fetch accepted request: " ++ e), w1)
    | Except.ok req =>
      let w2 : World :=
        { w1 with chatCalls := w1.chatCalls ++ [ChatCall.addExpert req.twilioConversationSID expertID] }
      match addExpert req.twilioConversationSID expertID with
      | Except.error e =>
          (Except.error ("failed to add expert to chat: " ++ e),
           { w2 with log := w2.log ++ [LogEvent.criticalAddExpertFailed expertID req.twilioConversationSID] })
      | Except.ok _ => (Except.ok req, w2)

/-- GetPendingRequests (service.go): a direct pass-through to the repository. -/
def GetPendingRequests (w : World) : List AssistanceRequest :=
  Repo.GetPendingRequests w.store

/-- ResolveRequest (service.go): a pass-through to the repository; the
expertID argument is accepted but never used. -/
def ResolveRequest (w : World) (requestID expertID now : Nat) :
    Except String Unit × World :=
  match Repo.ResolveRequest w.store requestID now with
  | Except.error e => (Except.error e, w)
  | Except.ok store2 => (Except.ok (), { w with store := store2 })

/-- SubmitRating (service.go): builds the rating from the four arguments
verbatim and hands it to the repository, with no validation. -/
def SubmitRating (w : World) (reqID userID expertID : Nat) (score : Int)
    (newID : Nat) (insertOk : Bool) : Except String Unit × World :=
  let rating : ExpertRating :=
    { ratingID := 0, requestID := reqID, userID := userID, expertID := expertID, score := score }
  match Repo.CreateRating w.store rating newID insertOk with
  | Except.error e => (Except.error e, w)
  | Except.ok store2 => (Except.ok (), { w with store := store2 })

end Service

/-! ### Generic list lemmas -/

theorem find_map_comm {α : Type} (f : α → α) (p : α → Bool)
    (hp : ∀ x, p (f x) = p x) :
    ∀ l : List α, (l.map f).find? p = (l.find? p).map f := by
  intro l
  induction l with
  | nil => rfl
  | cons x xs ih =>
    simp only [List.map_cons, List.find?]
    rw [hp x]
    cases p x
    · exact ih
    · rfl

theorem map_ite_id {α : Type} (c : α → Bool) (f : α → α) :
    ∀ l : List α, (∀ x ∈ l, c x = false) →
      l.map (fun x => if c x then f x else x) = l := by
  intro l
  induction l with
  | nil => intro _; rfl
  | cons x xs ih =>
    intro h
    have hx := h x (List.mem_cons_self x xs)
    simp only [List.map_cons, hx, Bool.false_eq_true, if_false]
    rw [ih (fun y hy => h y (List.mem_cons_of_mem x hy))]

/-! ### Facts about the accept UPDATE -/

theorem acceptApply_requestID (r e t : Nat) (x : AssistanceRequest) :
    (if acceptCond r x then acceptSet e t x else x).requestID = x.requestID := by
  by_cases h : acceptCond r x = true
  · rw [if_pos h]; rfl
  · rw [if_neg h]

theorem acceptApply_cond_false (r e t : Nat) (x : AssistanceRequest) :
    acceptCond r (if acceptCond r x then acceptSet e t x else x) = false := by
  by_cases h : acceptCond r x = true
  · rw [if_pos h]
    simp [acceptCond, acceptSet]
  · rw [if_neg h]
    exact Bool.eq_false_iff.mpr h

theorem getRequestByID_find (s : Store) (r : Nat) (q : AssistanceRequest)
    (hfind : Repo.GetRequestByID s r = Except.ok q) :
    s.requests.find? (fun x => x.requestID == r) = some q := by
  unfold Repo.GetRequestByID at hfind
  cases hf : s.requests.find? (fun x => x.requestID == r) with
  | none => rw [hf] at hfind; exact absurd hfind (by simp)
  | some q0 =>
      rw [hf] at hfind
      simp only [Except.ok.injEq] at hfind
      rw [hfind]

/-- Core accept lemma: starting from a store whose lookup of request r
yields a pending record q, the first accept call succeeds (claiming the
row for its expert) and a second accept call against the resulting store
observes zero affected rows and returns the distinguished conflict error;
the persisted row is exactly q with status active, the first caller's
expert id, and the first caller's timestamp. -/
theorem accept_claims_pending (s : Store) (r ea eb ta tb : Nat) (q : AssistanceRequest)
    (hfind : Repo.GetRequestByID s r = Except.ok q) (hpend : q.status = "pending") :
    ∃ s2, Repo.AcceptRequest s r ea ta = Except.ok s2 ∧
      Repo.AcceptRequest s2 r eb tb = Except.error "request not found or was already accepted" ∧
      Repo.GetRequestByID s2 r = Except.ok (acceptSet ea ta q) := by
  have hq := getRequestByID_find s r q hfind
  have hmem : q ∈ s.requests := List.mem_of_find?_eq_some hq
  have hpq : q.requestID = r := by
    have h2 := List.find?_some hq
    simpa using h2
  have hcond : acceptCond r q = true := by
    simp [acceptCond, hpq, hpend]
  have hfil : (s.requests.filter (acceptCond r)).length ≠ 0 := by
    have hmemf : q ∈ s.requests.filter (acceptCond r) :=
      List.mem_filter.mpr ⟨hmem, hcond⟩
    have hne := List.ne_nil_of_mem hmemf
    simpa [List.length_eq_zero] using hne
  refine ⟨{ s with requests :=
      s.requests.map (fun x => if acceptCond r x then acceptSet ea ta x else x) },
    ?_, ?_, ?_⟩
  · unfold Repo.AcceptRequest
    rw [if_neg hfil]
  · unfold Repo.AcceptRequest
    have hnil : ((s.requests.map
        (fun x => if acceptCond r x then acceptSet ea ta x else x)).filter
          (acceptCond r)) = [] := by
      rw [List.filter_eq_nil_iff]
      intro a ha
      obtain ⟨x, _, rfl⟩ := List.mem_map.mp ha
      simp [acceptApply_cond_false]
    simp only [hnil, List.length_nil]
    rfl
  · unfold Repo.GetRequestByID
    rw [find_map_comm _ _ (fun x => by simp [acceptApply_requestID]), hq]
    simp only [Option.map_some']
    rw [if_pos hcond]

/-- C1: two accept calls for the same pending request with distinct expert
ids, linearized by the atomicity of the conditional UPDATE, give exactly
one success in either interleaving; the loser gets the distinguished
zero-rows conflict error and the persisted expert id is the winner's. -/
theorem accept_race_exactly_one (s : Store) (r e1 e2 t1 t2 : Nat) (q : AssistanceRequest)
    (hfind : Repo.GetRequestByID s r = Except.ok q) (hpend : q.status = "pending")
    (hne : e1 ≠ e2) :
    (∃ s2, Repo.AcceptRequest s r e1 t1 = Except.ok s2 ∧
        Repo.AcceptRequest s2 r e2 t2 = Except.error "request not found or was already accepted" ∧
        ∃ q2, Repo.GetRequestByID s2 r = Except.ok q2 ∧
          q2.status = "active" ∧ q2.expertID = some e1) ∧
    (∃ s2, Repo.AcceptRequest s r e2 t2 = Except.ok s2 ∧
        Repo.AcceptRequest s2 r e1 t1 = Except.error "request not found or was already accepted" ∧
        ∃ q2, Repo.GetRequestByID s2 r = Except.ok q2 ∧
          q2.status = "active" ∧ q2.expertID = some e2) := by
  constructor
  · obtain ⟨s2, h1, h2, h3⟩ := accept_claims_pending s r e1 e2 t1 t2 q hfind hpend
    exact ⟨s2, h1, h2, acceptSet e1 t1 q, h3, rfl, rfl⟩
  · obtain ⟨s2, h1, h2, h3⟩ := accept_claims_pending s r e2 e1 t2 t1 q hfind hpend
    exact ⟨s2, h1, h2, acceptSet e2 t2 q, h3, rfl, rfl⟩

theorem filter_length_ne_zero_iff {α : Type} (l : List α) (c : α → Bool) :
    (l.filter c).length ≠ 0 ↔ ∃ q ∈ l, c q = true := by
  rw [Ne, List.length_eq_zero, List.filter_eq_nil_iff]
  push_neg
  simp

theorem acceptCond_iff (r : Nat) (q : AssistanceRequest) :
    acceptCond r q = true ↔ (q.requestID = r ∧ q.status = "pending") := by
  simp [acceptCond]

theorem resolveCond_iff (r : Nat) (q : AssistanceRequest) :
    resolveCond r q = true ↔ (q.requestID = r ∧ q.status = "active") := by
  simp [resolveCond]

/-- C2: the two conditional transitions implement the state machine:
accept succeeds exactly when some row with the given id is 'pending' (and
then rewrites exactly the matching pending rows to 'active' with the
expert and acceptance time assigned), resolve succeeds exactly when such
a row is 'active' (rewriting it to 'resolved' with the resolution time);
in every other state the UPDATE matches zero rows, leaves the table
unchanged, and the distinguished error is returned — so a row's status
can only move pending to active (by accept) and active to resolved (by
resolve), never skipping or reversing. -/
theorem request_state_machine (s : Store) (r e t : Nat) :
    ((∃ s2, Repo.AcceptRequest s r e t = Except.ok s2) ↔
      ∃ q ∈ s.requests, q.requestID = r ∧ q.status = "pending") ∧
    ((¬ ∃ q ∈ s.requests, q.requestID = r ∧ q.status = "pending") →
      Repo.AcceptRequest s r e t = Except.error "request not found or was already accepted" ∧
      s.requests.map (fun x => if acceptCond r x then acceptSet e t x else x) = s.requests) ∧
    (∀ s2, Repo.AcceptRequest s r e t = Except.ok s2 →
      s2.requests = s.requests.map (fun x => if acceptCond r x then acceptSet e t x else x) ∧
      s2.ratings = s.ratings) ∧
    (∀ x : AssistanceRequest,
      (x.requestID = r ∧ x.status = "pending" →
        (if acceptCond r x then acceptSet e t x else x) =
          { x with status := "active", expertID := some e, acceptedAt := some t }) ∧
      (¬ (x.requestID = r ∧ x.status = "pending") →
        (if acceptCond r x then acceptSet e t x else x) = x)) ∧
    ((∃ s2, Repo.ResolveRequest s r t = Except.ok s2) ↔
      ∃ q ∈ s.requests, q.requestID = r ∧ q.status = "active") ∧
    ((¬ ∃ q ∈ s.requests, q.requestID = r ∧ q.status = "active") →
      Repo.ResolveRequest s r t = Except.error "request not found or was not active" ∧
      s.requests.map (fun x => if resolveCond r x then resolveSet t x else x) = s.requests) ∧
    (∀ s2, Repo.ResolveRequest s r t = Except.ok s2 →
      s2.requests = s.requests.map (fun x => if resolveCond r x then resolveSet t x else x) ∧
      s2.ratings = s.ratings) ∧
    (∀ x : AssistanceRequest,
      (x.requestID = r ∧ x.status = "active" →
        (if resolveCond r x then resolveSet t x else x) =
          { x with status := "resolved", resolvedAt := some t }) ∧
      (¬ (x.requestID = r ∧ x.status = "active") →
        (if resolveCond r x then resolveSet t x else x) = x)) := by
  refine ⟨?_, ?_, ?_, ?_, ?_, ?_, ?_, ?_⟩
  · constructor
    · rintro ⟨s2, hs2⟩
      unfold Repo.AcceptRequest at hs2
      by_cases h : (s.requests.filter (acceptCond r)).length = 0
      · rw [if_pos h] at hs2; exact absurd hs2 (by simp)
      · obtain ⟨q, hmem, hc⟩ := (filter_length_ne_zero_iff _ _).mp h
        exact ⟨q, hmem, (acceptCond_iff r q).mp hc⟩
    · rintro ⟨q, hmem, hid, hst⟩
      have hfil : (s.requests.filter (acceptCond r)).length ≠ 0 :=
        (filter_length_ne_zero_iff _ _).mpr ⟨q, hmem, (acceptCond_iff r q).mpr ⟨hid, hst⟩⟩
      exact ⟨_, by unfold Repo.AcceptRequest; rw [if_neg hfil]⟩
  · intro h
    have hall : ∀ x ∈ s.requests, acceptCond r x = false := by
      intro x hx
      by_contra hcx
      have : acceptCond r x = true := eq_true_of_ne_false (fun hf => hcx hf)
      exact h ⟨x, hx, (acceptCond_iff r x).mp this⟩
    have hnil : s.requests.filter (acceptCond r) = [] :=
      List.filter_eq_nil_iff.mpr (fun a ha => by rw [hall a ha]; simp)
    constructor
    · unfold Repo.AcceptRequest
      rw [if_pos (by rw [hnil]; rfl)]
    · exact map_ite_id _ _ _ hall
  · intro s2 hs2
    unfold Repo.AcceptRequest at hs2
    by_cases h : (s.requests.filter (acceptCond r)).length = 0
    · rw [if_pos h] at hs2; exact absurd hs2 (by simp)
    · rw [if_neg h] at hs2
      simp only [Except.ok.injEq] at hs2
      rw [← hs2]
      exact ⟨rfl, rfl⟩
  · intro x
    constructor
    · intro hx
      rw [if_pos ((acceptCond_iff r x).mpr hx)]
      rfl
    · intro hx
      rw [if_neg (fun hc => hx ((acceptCond_iff r x).mp hc))]
  · constructor
    · rintro ⟨s2, hs2⟩
      unfold Repo.ResolveRequest at hs2
      by_cases h : (s.requests.filter (resolveCond r)).length = 0
      · rw [if_pos h] at hs2; exact absurd hs2 (by simp)
      · obtain ⟨q, hmem, hc⟩ := (filter_length_ne_zero_iff _ _).mp h
        exact ⟨q, hmem, (resolveCond_iff r q).mp hc⟩
    · rintro ⟨q, hmem, hid, hst⟩
      have hfil : (s.requests.filter (resolveCond r)).length ≠ 0 :=
        (filter_length_ne_zero_iff _ _).mpr ⟨q, hmem, (resolveCond_iff r q).mpr ⟨hid, hst⟩⟩
      exact ⟨_, by unfold Repo.ResolveRequest; rw [if_neg hfil]⟩
  · intro h
    have hall : ∀ x ∈ s.requests, resolveCond r x = false := by
      intro x hx
      by_contra hcx
      have : resolveCond r x = true := eq_true_of_ne_false (fun hf => hcx hf)
      exact h ⟨x, hx, (resolveCond_iff r x).mp this⟩
    have hnil : s.requests.filter (resolveCond r) = [] :=
      List.filter_eq_nil_iff.mpr (fun a ha => by rw [hall a ha]; simp)
    constructor
    · unfold Repo.ResolveRequest
      rw [if_pos (by rw [hnil]; rfl)]
    · exact map_ite_id _ _ _ hall
  · intro s2 hs2
    unfold Repo.ResolveRequest at hs2
    by_cases h : (s.requests.filter (resolveCond r)).length = 0
    · rw [if_pos h] at hs2; exact absurd hs2 (by simp)
    · rw [if_neg h] at hs2
      simp only [Except.ok.injEq] at hs2
      rw [← hs2]
      exact ⟨rfl, rfl⟩
  · intro x
    constructor
    · intro hx
      rw [if_pos ((resolveCond_iff r x).mpr hx)]
      rfl
    · intro hx
      rw [if_neg (fun hc => hx ((resolveCond_iff r x).mp hc))]

/-! ### Facts about the queue read (sorting and projection) -/

theorem mem_insertByCreated (q x : AssistanceRequest) :
    ∀ l, x ∈ insertByCreated q l ↔ x = q ∨ x ∈ l := by
  intro l
  induction l with
  | nil => simp [insertByCreated]
  | cons q2 qs ih =>
    unfold insertByCreated
    by_cases h : q.createdAt ≤ q2.createdAt
    · rw [if_pos h]
      simp [List.mem_cons]
    · rw [if_neg h]
      simp only [List.mem_cons, ih]
      tauto

theorem mem_sortByCreated (x : AssistanceRequest) :
    ∀ l, x ∈ sortByCreated l ↔ x ∈ l := by
  intro l
  induction l with
  | nil => simp [sortByCreated]
  | cons q qs ih =>
    unfold sortByCreated
    simp only [mem_insertByCreated, ih, List.mem_cons]

theorem insertByCreated_cons_of_le (q : AssistanceRequest)
    (l : List AssistanceRequest)
    (h : ∀ x ∈ l, q.createdAt ≤ x.createdAt) :
    insertByCreated q l = q :: l := by
  cases l with
  | nil => rfl
  | cons q2 qs =>
    unfold insertByCreated
    rw [if_pos (h q2 (List.mem_cons_self _ _))]

theorem pairwise_le_insertByCreated (q : AssistanceRequest) :
    ∀ l, List.Pairwise (fun a b => a.createdAt ≤ b.createdAt) l →
      List.Pairwise (fun a b => a.createdAt ≤ b.createdAt) (insertByCreated q l) := by
  intro l
  induction l with
  | nil => intro _; simp [insertByCreated]
  | cons q2 qs ih =>
    intro hp
    rw [List.pairwise_cons] at hp
    unfold insertByCreated
    by_cases h : q.createdAt ≤ q2.createdAt
    · rw [if_pos h, List.pairwise_cons]
      refine ⟨?_, List.pairwise_cons.mpr hp⟩
      intro x hx
      rcases List.mem_cons.mp hx with rfl | hx2
      · exact h
      · exact le_trans h (hp.1 x hx2)
    · rw [if_neg h, List.pairwise_cons]
      refine ⟨?_, ih hp.2⟩
      intro x hx
      rcases (mem_insertByCreated q x qs).mp hx with rfl | hx2
      · exact le_of_not_le h
      · exact hp.1 x hx2

theorem pairwise_le_sortByCreated :
    ∀ l, List.Pairwise (fun a b => a.createdAt ≤ b.createdAt) (sortByCreated l) := by
  intro l
  induction l with
  | nil => simp [sortByCreated]
  | cons q qs ih => exact pairwise_le_insertByCreated q _ ih

theorem sortByCreated_eq_of_sorted :
    ∀ l, List.Pairwise (fun a b => a.createdAt ≤ b.createdAt) l →
      sortByCreated l = l := by
  intro l
  induction l with
  | nil => intro _; rfl
  | cons q qs ih =>
    intro hp
    rw [List.pairwise_cons] at hp
    unfold sortByCreated
    rw [ih hp.2, insertByCreated_cons_of_le q qs hp.1]

/-- C6: with strictly increasing creation timestamps, the pending queue
is exactly the pending rows projected to queue columns in creation
order; every queue read (of any store) is sorted ascending by creation
time; and after a successful accept of request r, no row of any
subsequent queue read carries id r. -/
theorem pending_queue_order (s : Store)
    (hinc : List.Pairwise (fun a b => a.createdAt < b.createdAt) s.requests) :
    Repo.GetPendingRequests s =
      (s.requests.filter (fun q => q.status == "pending")).map scanQueueRow ∧
    (∀ s3 : Store, List.Pairwise (fun a b => a.createdAt ≤ b.createdAt)
      (Repo.GetPendingRequests s3)) ∧
    (∀ r e t s2, Repo.AcceptRequest s r e t = Except.ok s2 →
      ∀ q2 ∈ Repo.GetPendingRequests s2, q2.requestID ≠ r) := by
  refine ⟨?_, ?_, ?_⟩
  · have hsorted : List.Pairwise (fun a b => a.createdAt ≤ b.createdAt)
        (s.requests.filter (fun q => q.status == "pending")) :=
      (hinc.filter _).imp (fun h => le_of_lt h)
    unfold Repo.GetPendingRequests
    rw [sortByCreated_eq_of_sorted _ hsorted]
  · intro s3
    unfold Repo.GetPendingRequests
    refine List.pairwise_map.mpr ?_
    exact (pairwise_le_sortByCreated _).imp (fun hab => hab)
  · intro r e t s2 hacc q2 hq2
    unfold Repo.AcceptRequest at hacc
    by_cases h : (s.requests.filter (acceptCond r)).length = 0
    · rw [if_pos h] at hacc; exact absurd hacc (by simp)
    · rw [if_neg h] at hacc
      simp only [Except.ok.injEq] at hacc
      rw [← hacc] at hq2
      unfold Repo.GetPendingRequests at hq2
      obtain ⟨q3, hq3, hq32⟩ := List.mem_map.mp hq2
      rw [mem_sortByCreated] at hq3
      have hf := List.mem_filter.mp hq3
      obtain ⟨x, _, hxq3⟩ := List.mem_map.mp hf.1
      have hq3p : q3.status = "pending" := by simpa using hf.2
      intro hqr
      have hq3r : q3.requestID = r := by
        rw [← hq32] at hqr
        exact hqr
      by_cases hc : acceptCond r x = true
      · rw [if_pos hc] at hxq3
        rw [← hxq3] at hq3p
        exact absurd hq3p (by simp [acceptSet])
      · rw [if_neg hc] at hxq3
        rw [hxq3] at hc
        exact hc ((acceptCond_iff r q3).mpr ⟨hq3r, hq3p⟩)

/-- C10: every record coming back from the pending-queue read has only
the four scanned columns populated; status, summary, expert id, and the
two optional timestamps keep their zero values even though the
underlying row is a full pending record. -/
theorem pending_queue_projection (s : Store) (q2 : AssistanceRequest)
    (h : q2 ∈ Repo.GetPendingRequests s) :
    q2.status = "" ∧ q2.llmSummary = "" ∧ q2.expertID = none ∧
    q2.acceptedAt = none ∧ q2.resolvedAt = none ∧
    ∃ q ∈ s.requests, q.status = "pending" ∧ q2.requestID = q.requestID ∧
      q2.userID = q.userID ∧ q2.twilioConversationSID = q.twilioConversationSID ∧
      q2.createdAt = q.createdAt := by
  unfold Repo.GetPendingRequests at h
  obtain ⟨q3, hq3, rfl⟩ := List.mem_map.mp h
  rw [mem_sortByCreated] at hq3
  have hf := List.mem_filter.mp hq3
  exact ⟨rfl, rfl, rfl, rfl, rfl, q3, hf.1, by simpa using hf.2, rfl, rfl, rfl, rfl⟩

/-- Sample pending request used by concrete witnesses. -/
def sampleReq : AssistanceRequest :=
  { requestID := 1
    userID := 10
    expertID := none
    status := "pending"
    llmSummary := "user needs help"
    twilioConversationSID := "CH1"
    createdAt := 5
    acceptedAt := none
    resolvedAt := none }

/-- Sample store holding the one pending request. -/
def sampleStore : Store := { requests := [sampleReq], ratings := [] }

/-- Witness for C2 at a concrete store: the pending request 1 can be
accepted, and the same (still pending) request cannot be resolved. -/
theorem request_state_machine_witness :
    (∃ s2, Repo.AcceptRequest sampleStore 1 7 3 = Except.ok s2) ∧
    Repo.ResolveRequest sampleStore 1 3 = Except.error "request not found or was not active" :=
  ⟨(request_state_machine sampleStore 1 7 3).1.mpr
      ⟨sampleReq, by simp [sampleStore], rfl, rfl⟩,
    ((request_state_machine sampleStore 1 7 3).2.2.2.2.2.1
      (by decide)).1⟩

/-- Witness for C1 at a concrete store: request 1 is pending, experts 7
and 8 race. -/
theorem accept_race_exactly_one_witness :
    Repo.GetRequestByID sampleStore 1 = Except.ok sampleReq ∧
    sampleReq.status = "pending" ∧ (7 : Nat) ≠ 8 ∧
    (∃ s2, Repo.AcceptRequest sampleStore 1 7 3 = Except.ok s2 ∧
        Repo.AcceptRequest s2 1 8 4 = Except.error "request not found or was already accepted" ∧
        ∃ q2, Repo.GetRequestByID s2 1 = Except.ok q2 ∧
          q2.status = "active" ∧ q2.expertID = some 7) :=
  ⟨rfl, rfl, by decide,
    (accept_race_exactly_one sampleStore 1 7 8 3 4 sampleReq rfl rfl (by decide)).1⟩

/-! ### Orchestrator-level theorems -/

theorem find_strengthen {α : Type} (p c : α → Bool)
    (himp : ∀ x, c x = true → p x = true) :
    ∀ (l : List α) (a : α), l.find? p = some a → c a = true →
      l.find? c = some a := by
  intro l
  induction l with
  | nil => intro a hp _; exact absurd hp (by simp)
  | cons x xs ih =>
    intro a hp hc
    by_cases hpx : p x = true
    · rw [List.find?_cons_of_pos _ hpx] at hp
      have hxa : x = a := by simpa using hp
      subst hxa
      rw [List.find?_cons_of_pos _ hc]
    · rw [List.find?_cons_of_neg _ hpx] at hp
      have hcx : ¬ c x = true := fun hcx => hpx (himp x hcx)
      rw [List.find?_cons_of_neg _ hcx]
      exact ih a hp hc

/-- Successful debit for a user whose (unique, first) users row has a
positive balance: the row is decremented and the new balance returned. -/
theorem debitToken_ok (users : List (Nat × Nat)) (userID b : Nat)
    (huser : users.find? (fun u => u.1 == userID) = some (userID, b))
    (hb : 0 < b) :
    Billing.DebitToken users userID =
      Except.ok
        (users.map (fun v => if v.1 == userID && decide (0 < v.2) then (v.1, v.2 - 1) else v),
         b - 1) := by
  have hdfind : users.find? (fun u => u.1 == userID && decide (0 < u.2)) = some (userID, b) := by
    refine find_strengthen _ _ (fun x hx => ?_) users (userID, b) huser (by simp [hb])
    simp only [Bool.and_eq_true] at hx
    exact hx.1
  unfold Billing.DebitToken
  rw [hdfind]

/-- C3: a failed token debit aborts CreateRequest with the distinguished
payment error and leaves the entire world untouched: no request record,
no summarize call, no chat call, no balance change, no log entry. -/
theorem create_debit_shortcircuit (w : World) (userID : Nat) (twilioSID : String)
    (summarize : String → Except String String)
    (removeBot : String → Except String Unit)
    (insertOk : Bool) (newID now : Nat) (e : String)
    (hdebit : Billing.DebitToken w.users userID = Except.error e) :
    Service.CreateRequest w userID twilioSID summarize removeBot insertOk newID now
      = (Except.error ("token debit failed: " ++ e), w) := by
  unfold Service.CreateRequest
  rw [hdebit]

/-- C4: when the debit succeeds but summarization fails, CreateRequest
aborts with the summarize error, creates no record, makes no chat call,
and the user's balance stays decremented; the summarize call itself was
made. -/
theorem create_summarize_shortcircuit (w : World) (userID : Nat) (twilioSID : String)
    (summarize : String → Except String String)
    (removeBot : String → Except String Unit)
    (insertOk : Bool) (newID now b : Nat) (e : String)
    (huser : w.users.find? (fun u => u.1 == userID) = some (userID, b))
    (hb : 0 < b)
    (hsum : summarize twilioSID = Except.error e) :
    (Service.CreateRequest w userID twilioSID summarize removeBot insertOk newID now).1
      = Except.error ("could not summarize chat: " ++ e) ∧
    (Service.CreateRequest w userID twilioSID summarize removeBot insertOk newID now).2.store
      = w.store ∧
    (Service.CreateRequest w userID twilioSID summarize removeBot insertOk newID now).2.chatCalls
      = w.chatCalls ∧
    (Service.CreateRequest w userID twilioSID summarize removeBot insertOk newID now).2.llmCalls
      = w.llmCalls ++ [twilioSID] ∧
    (((Service.CreateRequest w userID twilioSID summarize removeBot insertOk newID now).2.users.find?
        (fun u => u.1 == userID)).map Prod.snd) = some (b - 1) := by
  have hdebit := debitToken_ok w.users userID b huser hb
  unfold Service.CreateRequest
  rw [hdebit, hsum]
  refine ⟨rfl, rfl, rfl, rfl, ?_⟩
  have hpres : ∀ x : Nat × Nat,
      ((fun v : Nat × Nat =>
        if v.1 == userID && decide (0 < v.2) then (v.1, v.2 - 1) else v) x).1 = x.1 := by
    intro x
    show (if x.1 == userID && decide (0 < x.2) then (x.1, x.2 - 1) else x).1 = x.1
    by_cases h : (x.1 == userID && decide (0 < x.2)) = true
    · rw [if_pos h]
    · rw [if_neg h]
  have hmap := find_map_comm
    (fun v : Nat × Nat => if v.1 == userID && decide (0 < v.2) then (v.1, v.2 - 1) else v)
    (fun u : Nat × Nat => u.1 == userID)
    (fun x => by simp only [hpres]) w.users
  simp only [hmap, huser, Option.map_some']
  rw [if_pos (by simp [hb])]

/-- C5: debit, summarize and persistence all succeed but bot removal
fails: CreateRequest still returns the created pending record with no
error, the record is in the store, and the failure is a WARNING log. -/
theorem create_removebot_nonfatal (w : World) (userID : Nat) (twilioSID : String)
    (summarize : String → Except String String)
    (removeBot : String → Except String Unit)
    (newID now b : Nat) (summary e : String)
    (huser : w.users.find? (fun u => u.1 == userID) = some (userID, b))
    (hb : 0 < b)
    (hsum : summarize twilioSID = Except.ok summary)
    (hrb : removeBot twilioSID = Except.error e) :
    (Service.CreateRequest w userID twilioSID summarize removeBot true newID now).1
      = Except.ok
          { requestID := newID, userID := userID, expertID := none, status := "pending",
            llmSummary := summary, twilioConversationSID := twilioSID, createdAt := now,
            acceptedAt := none, resolvedAt := none } ∧
    (Service.CreateRequest w userID twilioSID summarize removeBot true newID now).2.store.requests
      = w.store.requests ++
        [{ requestID := newID, userID := userID, expertID := none, status := "pending",
           llmSummary := summary, twilioConversationSID := twilioSID, createdAt := now,
           acceptedAt := none, resolvedAt := none }] ∧
    LogEvent.warnRemoveBotFailed twilioSID ∈
      (Service.CreateRequest w userID twilioSID summarize removeBot true newID now).2.log := by
  have hdebit := debitToken_ok w.users userID b huser hb
  unfold Service.CreateRequest Repo.CreateRequest
  rw [hdebit, hsum]
  simp only [if_pos]
  rw [hrb]
  exact ⟨rfl, rfl, by simp⟩

/-- C7: when the atomic claim succeeds but adding the expert to the chat
fails, the service returns an error, the store still shows the request
active with the expert assigned (no rollback), and a CRITICAL log entry
is recorded. -/
theorem accept_addexpert_critical (w : World) (r e t : Nat) (q : AssistanceRequest)
    (addExpert : String → Nat → Except String Unit) (msg : String)
    (hfind : Repo.GetRequestByID w.store r = Except.ok q) (hpend : q.status = "pending")
    (hae : addExpert q.twilioConversationSID e = Except.error msg) :
    (Service.AcceptRequest w r e addExpert t).1
      = Except.error ("failed to add expert to chat: " ++ msg) ∧
    (∃ q2, Repo.GetRequestByID (Service.AcceptRequest w r e addExpert t).2.store r
        = Except.ok q2 ∧ q2.status = "active" ∧ q2.expertID = some e) ∧
    LogEvent.criticalAddExpertFailed e q.twilioConversationSID ∈
      (Service.AcceptRequest w r e addExpert t).2.log := by
  obtain ⟨s2, h1, _, h3⟩ := accept_claims_pending w.store r e e t t q hfind hpend
  unfold Service.AcceptRequest
  rw [h1]
  simp only []
  rw [h3]
  simp only []
  have hsid : (acceptSet e t q).twilioConversationSID = q.twilioConversationSID := rfl
  rw [hsid, hae]
  refine ⟨rfl, ⟨acceptSet e t q, h3, rfl, rfl⟩, by simp⟩

/-- C8: SubmitRating builds the rating from its four arguments verbatim
(any score, in range or not) and appends it to the ratings table with no
validation of the request, requester, assignee or score; it succeeds
whenever the insert succeeds. -/
theorem submit_rating_unconditional (w : World) (reqID userID expertID : Nat)
    (score : Int) (newID : Nat) :
    Service.SubmitRating w reqID userID expertID score newID true
      = (Except.ok (),
         { w with store := { w.store with ratings := w.store.ratings ++
             [{ ratingID := newID, requestID := reqID, userID := userID,
                expertID := expertID, score := score }] } }) := rfl

/-- C9: the service-level ResolveRequest never reads its expertID
argument, so any two expert ids give identical results and identical
world effects. -/
theorem resolve_ignores_expert (w : World) (requestID e1 e2 now : Nat) :
    Service.ResolveRequest w requestID e1 now
      = Service.ResolveRequest w requestID e2 now := rfl

/-- Second sample pending request, created later than the first. -/
def sampleReq2 : AssistanceRequest :=
  { requestID := 2
    userID := 11
    expertID := none
    status := "pending"
    llmSummary := "second question"
    twilioConversationSID := "CH2"
    createdAt := 9
    acceptedAt := none
    resolvedAt := none }

/-- Store holding two pending requests at strictly increasing timestamps. -/
def sampleStore2 : Store := { requests := [sampleReq, sampleReq2], ratings := [] }

/-- Witness for C6: on a store with two pending requests created at times
5 and 9, the queue read equals the pending rows in creation order. -/
theorem pending_queue_order_witness :
    List.Pairwise (fun a b => a.createdAt < b.createdAt) sampleStore2.requests ∧
    Repo.GetPendingRequests sampleStore2 =
      (sampleStore2.requests.filter (fun q => q.status == "pending")).map scanQueueRow :=
  ⟨by decide, (pending_queue_order sampleStore2 (by decide)).1⟩

/-- Witness for C10: the one row of the sample queue read has exactly the
four scanned columns populated. -/
theorem pending_queue_projection_witness :
    scanQueueRow sampleReq ∈ Repo.GetPendingRequests sampleStore ∧
    (scanQueueRow sampleReq).status = "" ∧
    (scanQueueRow sampleReq).llmSummary = "" ∧
    (scanQueueRow sampleReq).expertID = none ∧
    (scanQueueRow sampleReq).acceptedAt = none ∧
    (scanQueueRow sampleReq).resolvedAt = none ∧
    ∃ q ∈ sampleStore.requests, q.status = "pending" ∧
      (scanQueueRow sampleReq).requestID = q.requestID ∧
      (scanQueueRow sampleReq).userID = q.userID ∧
      (scanQueueRow sampleReq).twilioConversationSID = q.twilioConversationSID ∧
      (scanQueueRow sampleReq).createdAt = q.createdAt := by
  have hm : scanQueueRow sampleReq ∈ Repo.GetPendingRequests sampleStore := by
    have he : Repo.GetPendingRequests sampleStore = [scanQueueRow sampleReq] := rfl
    rw [he]
    exact List.mem_singleton_self _
  exact ⟨hm, pending_queue_projection sampleStore (scanQueueRow sampleReq) hm⟩

/-- World with one user (id 10, balance 3) and the one pending request. -/
def sampleWorld : World :=
  { users := [(10, 3)], store := sampleStore, llmCalls := [], chatCalls := [], log := [] }

/-- World whose only user has a zero token balance. -/
def brokeWorld : World :=
  { users := [(10, 0)], store := { requests := [], ratings := [] },
    llmCalls := [], chatCalls := [], log := [] }

/-- Witness for C3: the broke user's create attempt aborts with the
payment error and the world is exactly unchanged. -/
theorem create_debit_shortcircuit_witness :
    Billing.DebitToken brokeWorld.users 10
      = Except.error "insufficient funds or user not found" ∧
    Service.CreateRequest brokeWorld 10 "CH9" (fun _ => Except.ok "sum")
        (fun _ => Except.ok ()) true 5 6
      = (Except.error ("token debit failed: " ++ "insufficient funds or user not found"),
         brokeWorld) :=
  ⟨rfl, create_debit_shortcircuit brokeWorld 10 "CH9" (fun _ => Except.ok "sum")
      (fun _ => Except.ok ()) true 5 6 "insufficient funds or user not found" rfl⟩

/-- Witness for C4: summarize fails for the funded user; the error is
returned, the store is untouched and the balance went from 3 to 2. -/
theorem create_summarize_shortcircuit_witness :
    (Service.CreateRequest sampleWorld 10 "CH9" (fun _ => Except.error "llm down")
        (fun _ => Except.ok ()) true 5 6).1
      = Except.error ("could not summarize chat: " ++ "llm down") ∧
    (Service.CreateRequest sampleWorld 10 "CH9" (fun _ => Except.error "llm down")
        (fun _ => Except.ok ()) true 5 6).2.store = sampleWorld.store ∧
    ((Service.CreateRequest sampleWorld 10 "CH9" (fun _ => Except.error "llm down")
        (fun _ => Except.ok ()) true 5 6).2.users.find?
          (fun u => u.1 == 10)).map Prod.snd = some 2 :=
  have H := create_summarize_shortcircuit sampleWorld 10 "CH9"
    (fun _ => Except.error "llm down") (fun _ => Except.ok ()) true 5 6 3 "llm down"
    rfl (by decide) rfl
  ⟨H.1, H.2.1, H.2.2.2.2⟩

/-- Witness for C5: bot removal fails but the created pending record is
returned and the WARNING is logged. -/
theorem create_removebot_nonfatal_witness :
    (Service.CreateRequest sampleWorld 10 "CH9" (fun _ => Except.ok "sum")
        (fun _ => Except.error "chat down") true 5 6).1
      = Except.ok
          { requestID := 5, userID := 10, expertID := none, status := "pending",
            llmSummary := "sum", twilioConversationSID := "CH9", createdAt := 6,
            acceptedAt := none, resolvedAt := none } ∧
    LogEvent.warnRemoveBotFailed "CH9" ∈
      (Service.CreateRequest sampleWorld 10 "CH9" (fun _ => Except.ok "sum")
        (fun _ => Except.error "chat down") true 5 6).2.log :=
  have H := create_removebot_nonfatal sampleWorld 10 "CH9" (fun _ => Except.ok "sum")
    (fun _ => Except.error "chat down") 5 6 3 "sum" "chat down" rfl (by decide) rfl rfl
  ⟨H.1, H.2.2⟩

/-- Witness for C7: the chat gateway refuses the expert; accept returns
the error but the store keeps request 1 active and assigned to expert 7,
with the CRITICAL log entry present. -/
theorem accept_addexpert_critical_witness :
    (Service.AcceptRequest sampleWorld 1 7 (fun _ _ => Except.error "chat down") 3).1
      = Except.error ("failed to add expert to chat: " ++ "chat down") ∧
    (∃ q2, Repo.GetRequestByID
        (Service.AcceptRequest sampleWorld 1 7 (fun _ _ => Except.error "chat down") 3).2.store 1
        = Except.ok q2 ∧ q2.status = "active" ∧ q2.expertID = some 7) ∧
    LogEvent.criticalAddExpertFailed 7 "CH1" ∈
      (Service.AcceptRequest sampleWorld 1 7 (fun _ _ => Except.error "chat down") 3).2.log :=
  accept_addexpert_critical sampleWorld 1 7 3 sampleReq
    (fun _ _ => Except.error "chat down") "chat down" rfl rfl rfl

end Sage
